import Mathlib

/-!
Shallow embedding of the snake game simulation from `src/main.rs`.

The game state lives in an ECS: an ordered resource `SnakeSegments(Vec<Entity>)`
(head first) whose entities carry `Position { x : i32, y : i32 }` components,
a head entity carrying a `SnakeHead { direction }` component, and food entities.
We embed the simulation systems as pure functions over the ordered list of
segment positions (head first), the head direction, and an optional food
position; randomness in `spawn_food` is embedded as an explicit stream of
pre-quantized grid positions, one per `random` draw of a coordinate pair.
-/

namespace Snake

/-- Arena width constant (`const ARENA_WIDTH: u32 = 20`). -/
def ARENA_WIDTH : Nat := 20

/-- Arena height constant (`const ARENA_HEIGHT: u32 = 20`). -/
def ARENA_HEIGHT : Nat := 20

/-- Grid coordinate (`struct Position { x: i32, y: i32 }`). Rust `i32`
arithmetic here never approaches the wrap-around bounds, so `Int` is a
faithful embedding. -/
structure Position where
  x : Int
  y : Int
deriving DecidableEq, Repr

/-- Head direction (`enum Direction`). -/
inductive Direction where
  | Up
  | Down
  | Left
  | Right
deriving DecidableEq, Repr, Fintype

/-- `Direction::opposite` from `impl Direction` (main.rs lines 127-134). -/
def Direction.opposite : Direction → Direction
  | .Up => .Down
  | .Down => .Up
  | .Right => .Left
  | .Left => .Right

/-- Keyboard state sampled by `snake_direction`: whether each arrow key is
currently pressed (`keyboard_input.pressed(KeyCode::Arrow…)`). -/
structure KeyInput where
  left : Bool
  right : Bool
  up : Bool
  down : Bool
deriving DecidableEq, Repr, Fintype

/-- The `next_dir` computation inside `snake_direction` (main.rs lines
142-152): a fixed if-else chain over the held arrow keys, falling back to the
current direction when none is held. -/
def next_dir (keys : KeyInput) (current : Direction) : Direction :=
  if keys.left then Direction.Left
  else if keys.right then Direction.Right
  else if keys.up then Direction.Up
  else if keys.down then Direction.Down
  else current

/-- The commit step of `snake_direction` (main.rs lines 153-155): the
attempted direction is stored only when it is not the opposite of the current
direction. -/
def set_head_direction (current next : Direction) : Direction :=
  if next ≠ current.opposite then next else current

/-- The whole `snake_direction` system (main.rs lines 137-157) for one head:
map the keyboard state to an attempted direction, then commit it through the
opposite-direction guard. -/
def snake_direction (keys : KeyInput) (current : Direction) : Direction :=
  set_head_direction current (next_dir keys current)

/-- Head offset by one grid unit in the current direction: the `match
snake_head.direction` block of `snake_movement` (main.rs lines 175-180). -/
def move_head (d : Direction) (p : Position) : Position :=
  match d with
  | .Right => { p with x := p.x + 1 }
  | .Left => { p with x := p.x - 1 }
  | .Up => { p with y := p.y + 1 }
  | .Down => { p with y := p.y - 1 }

/-- The out-of-bounds test of `snake_movement` (main.rs lines 183-186), in the
source's order: `x < 0 || y < 0 || y > ARENA_HEIGHT || x > ARENA_WIDTH`. -/
def outOfBounds (p : Position) : Bool :=
  p.x < 0 || p.y < 0 || p.y > (ARENA_HEIGHT : Int) || p.x > (ARENA_WIDTH : Int)

/-- The `snake_movement` system (main.rs lines 159-204) over the ordered list
of segment positions (head first). Returns the post-move positions and
whether a `GameOverEvent` was sent. Steps, as in the source: snapshot all
segment positions; move the head in place; send game-over if the new head is
out of bounds or the snapshot contains it; then set each child segment to the
snapshot position of its predecessor (`segment_positions.iter().zip(child_segments)`).
When there is no head (empty segment list) the system does nothing. -/
def snake_movement (d : Direction) (positions : List Position) :
    List Position × Bool :=
  match positions with
  | [] => ([], false)
  | head :: children =>
    let segment_positions := head :: children
    let head_position := move_head d head
    let game_over :=
      outOfBounds head_position || segment_positions.contains head_position
    let new_children := (segment_positions.zip children).map Prod.fst
    (head_position :: new_children, game_over)

/-- The `snake_eating` system (main.rs lines 211-225): for each live food at
the head's position, despawn it and send one `GrowthEvent`. Embedded over the
head position and the list of live food positions; returns the surviving
foods and the number of growth events sent. -/
def snake_eating (head : Position) (foods : List Position) :
    List Position × Nat :=
  (foods.filter (fun food_pos => food_pos ≠ head),
   (foods.filter (fun food_pos => food_pos = head)).length)

/-- The `snake_growing` system (main.rs lines 227-243). `growth_reader.read().next()`
consumes at most one pending `GrowthEvent`; when one is present, the position
of the last entity in the segment list is looked up and a new segment is
pushed there. `segments.0.last().unwrap()` panics on an empty list, embedded
as `none`. Returns the remaining pending-event count and the new segment
list. -/
def snake_growing (pending : Nat) (segments : List Position) :
    Option (Nat × List Position) :=
  match pending with
  | 0 => some (0, segments)
  | n + 1 =>
    match segments.getLast? with
    | some last_segment_pos => some (n, segments ++ [last_segment_pos])
    | none => none

/-- One movement tick followed by the growth step running on the post-move
segment list, as scheduled in `main` (`snake_movement` then `snake_eating`
then `snake_growing` within one frame). -/
def movement_then_growing (d : Direction) (segments : List Position)
    (pending : Nat) : Option (Nat × List Position) :=
  snake_growing pending (snake_movement d segments).1

/-- The resample-then-spawn body of `spawn_food` (main.rs lines 252-284) over
an explicit random stream: each `gen_pos()` call and the final
`.insert(Position { x: random…, y: random… })` each consume one element of
the stream. The loop draws until `next_pos` is not contained in the occupied
positions, then the food entity is spawned at a FRESH draw from the stream
(the loop's result is discarded by the source). `none` when the stream is
exhausted. -/
def spawn_food (occupied : List Position) :
    List Position → Option Position
  | [] => none
  | next_pos :: rest =>
    if occupied.contains next_pos then
      spawn_food occupied rest
    else
      match rest with
      | [] => none
      | spawned :: _ => some spawned

/-- Whole-game state tracked by the simulation: the head direction, the
ordered segment positions (head first), and the live food positions. -/
structure GameState where
  direction : Direction
  segments : List Position
  foods : List Position
deriving DecidableEq, Repr

/-- The fixed starting configuration built by `spawn_snake` (main.rs lines
73-91): a head at (3,3) facing `Direction::Up` and one body segment at
(3,2). -/
def spawn_snake : Direction × List Position :=
  (Direction.Up, [⟨3, 3⟩, ⟨3, 2⟩])

/-- The `game_over` system (main.rs lines 291-304): when a `GameOverEvent` is
pending, despawn every entity carrying a `Position` (all segments and all
foods), clear the segment resource and rebuild it via `spawn_snake`. -/
def game_over (pending : Bool) (s : GameState) : GameState :=
  if pending then
    { direction := spawn_snake.1, segments := spawn_snake.2, foods := [] }
  else
    s

end Snake

namespace Snake

/-- Mapping `Prod.fst` over a zip keeps a prefix of the first list. -/
theorem map_fst_zip_eq_take {α β : Type} (l₁ : List α) (l₂ : List β) :
    (l₁.zip l₂).map Prod.fst = l₁.take l₂.length := by
  induction l₁ generalizing l₂ with
  | nil => simp
  | cons a l ih =>
    cases l₂ with
    | nil => simp
    | cons b l₂ => simp [List.zip_cons_cons, ih]

/-- Structure of one movement tick on a nonempty snake: the head advances one
step, the game-over flag is exactly the out-of-bounds-or-snapshot-collision
test on the new head, and every child segment takes the snapshot position of
its predecessor (so the new list is the new head consed onto the snapshot
truncated to the old body length). -/
theorem snake_movement_eq (d : Direction) (head : Position)
    (children : List Position) :
    snake_movement d (head :: children) =
      (move_head d head :: (head :: children).take children.length,
       outOfBounds (move_head d head) ||
         (head :: children).contains (move_head d head)) := by
  simp only [snake_movement, map_fst_zip_eq_take]

/-- C1 (counterexample): with the source's bound check `x > ARENA_WIDTH`, a
head move to (20, 20) is NOT out of bounds and a movement tick reaching it
(head at (20,19) facing Up, body at (20,18), no snapshot collision) sends no
game-over event, contradicting the claim that (20,20) emits game-over. -/
theorem C1_counterexample :
    (snake_movement Direction.Up [⟨20, 19⟩, ⟨20, 18⟩]).2 = false ∧
    outOfBounds ⟨20, 20⟩ = false := by
  decide

/-- C1 (amended): a coordinate is out of bounds exactly when
`x < 0 ∨ y < 0 ∨ x > ARENA_WIDTH ∨ y > ARENA_HEIGHT`; movement ticks whose
new head position is (21,5), (5,-1) or (5,21) emit a game-over signal, and
ones whose new head position is (19,19) or (20,20) (with no snapshot
collision) do not. -/
theorem C1_bounds_exact :
    (∀ x y : Int, outOfBounds ⟨x, y⟩ = true ↔ (x < 0 ∨ y < 0 ∨ x > 20 ∨ y > 20)) ∧
    (snake_movement Direction.Right [⟨20, 5⟩, ⟨19, 5⟩]).2 = true ∧
    (snake_movement Direction.Down [⟨5, 0⟩, ⟨5, 1⟩]).2 = true ∧
    (snake_movement Direction.Up [⟨5, 20⟩, ⟨5, 19⟩]).2 = true ∧
    (snake_movement Direction.Up [⟨19, 18⟩, ⟨19, 17⟩]).2 = false ∧
    (snake_movement Direction.Up [⟨20, 19⟩, ⟨20, 18⟩]).2 = false := by
  refine ⟨?_, by decide, by decide, by decide, by decide, by decide⟩
  intro x y
  simp only [outOfBounds, ARENA_WIDTH, ARENA_HEIGHT, Bool.or_eq_true,
    decide_eq_true_eq, Nat.cast_ofNat]
  omega

/-- C2 (code evaluated at the failing input): with occupied set {(5,5)} and
random draws (3,3) then (5,5), the resample loop accepts (3,3), but the food
is spawned at the next fresh draw (5,5) — a member of the occupied set. -/
theorem C2_spawn_overlap :
    spawn_food [⟨5, 5⟩] [⟨3, 3⟩, ⟨5, 5⟩] = some ⟨5, 5⟩ ∧
    ([⟨5, 5⟩] : List Position).contains ⟨5, 5⟩ = true := by
  decide

/-- C5: for every current direction, attempting its opposite leaves the head
direction unchanged, and attempting any direction that is not the opposite
commits it. -/
theorem C5_opposite_guard :
    ∀ current next : Direction,
      set_head_direction current current.opposite = current ∧
      (next ≠ current.opposite → set_head_direction current next = next) := by
  decide

/-- C5 witness: with current direction Up, attempting Down (its opposite) is
a no-op, and attempting Left commits Left. -/
theorem C5_opposite_guard_witness :
    set_head_direction Direction.Up Direction.Down = Direction.Up ∧
    set_head_direction Direction.Up Direction.Left = Direction.Left :=
  ⟨(C5_opposite_guard Direction.Up Direction.Left).1,
   (C5_opposite_guard Direction.Up Direction.Left).2 (by decide)⟩

/-- C6: with a pending game-over signal the reset step destroys all tracked
entities and rebuilds the canonical state, regardless of the pre-reset state:
exactly 2 segments, head at (3,3), body at (3,2), direction Up, no food. -/
theorem C6_reset_canonical :
    ∀ s : GameState,
      game_over true s =
        { direction := Direction.Up, segments := [⟨3, 3⟩, ⟨3, 2⟩], foods := [] } ∧
      (game_over true s).segments.length = 2 := by
  intro s
  exact ⟨rfl, rfl⟩

/-- C7: on every movement tick on a nonempty snake, the game-over signal is
sent exactly when the new head position is out of bounds or is contained in
the pre-move snapshot of all segments (head included), and the segment
positions are still updated per the body-shift rule in the same tick
(independently of the signal). -/
theorem C7_death_check :
    ∀ (d : Direction) (head : Position) (children : List Position),
      (snake_movement d (head :: children)).2 =
        (outOfBounds (move_head d head) ||
          (head :: children).contains (move_head d head)) ∧
      (snake_movement d (head :: children)).1 =
        move_head d head :: (head :: children).take children.length := by
  intro d head children
  rw [snake_movement_eq]
  exact ⟨rfl, rfl⟩

/-- C8: the head's new position is its old position offset by exactly one
grid unit in its direction (Up: y+1, Down: y-1, Right: x+1, Left: x-1) with
the other coordinate unchanged, and the movement tick puts exactly this
position at the head of the segment list. -/
theorem C8_head_offset :
    ∀ (p : Position) (d : Direction) (children : List Position),
      move_head Direction.Up p = ⟨p.x, p.y + 1⟩ ∧
      move_head Direction.Down p = ⟨p.x, p.y - 1⟩ ∧
      move_head Direction.Right p = ⟨p.x + 1, p.y⟩ ∧
      move_head Direction.Left p = ⟨p.x - 1, p.y⟩ ∧
      ((snake_movement d (p :: children)).1).head? = some (move_head d p) := by
  intro p d children
  refine ⟨rfl, rfl, rfl, rfl, ?_⟩
  rw [snake_movement_eq]
  rfl

/-- C10: the per-frame intent mapping has fixed priority Left over Right over
Up over Down when several arrow keys are held, and with no arrow key held the
attempted direction is the current one, so the committed direction is
unchanged. -/
theorem C10_key_priority :
    ∀ (r u dw : Bool) (c : Direction),
      next_dir ⟨true, r, u, dw⟩ c = Direction.Left ∧
      next_dir ⟨false, true, u, dw⟩ c = Direction.Right ∧
      next_dir ⟨false, false, true, dw⟩ c = Direction.Up ∧
      next_dir ⟨false, false, false, true⟩ c = Direction.Down ∧
      next_dir ⟨false, false, false, false⟩ c = c ∧
      snake_direction ⟨false, false, false, false⟩ c = c := by
  decide

/-- Appending at a known last element: the successor case of `snake_growing`. -/
theorem snake_growing_succ (n : Nat) (segs : List Position) (x : Position)
    (h : segs.getLast? = some x) :
    snake_growing (n + 1) segs = some (n, segs ++ [x]) := by
  simp [snake_growing, h]

/-- C4: after a movement tick on a snake with a head and any body, each
non-head segment's new position equals the pre-tick snapshot position of its
immediate predecessor in the sequence. -/
theorem C4_body_follows_head :
    ∀ (d : Direction) (head : Position) (children : List Position) (i : Nat),
      i + 1 < ((snake_movement d (head :: children)).1).length →
      ((snake_movement d (head :: children)).1)[i + 1]? =
        (head :: children)[i]? := by
  intro d head children i hi
  rw [snake_movement_eq] at hi ⊢
  have hlt : i < children.length := by
    simp [List.length_take] at hi
    omega
  rw [List.getElem?_cons_succ]
  exact List.getElem?_take_of_lt hlt

/-- C4 witness: on the starting snake moving Up, segment 1 ends on the
head's pre-tick position. -/
theorem C4_body_follows_head_witness :
    0 + 1 < ((snake_movement Direction.Up [⟨3, 3⟩, ⟨3, 2⟩]).1).length ∧
    ((snake_movement Direction.Up [⟨3, 3⟩, ⟨3, 2⟩]).1)[0 + 1]? =
      ([⟨3, 3⟩, ⟨3, 2⟩] : List Position)[0]? :=
  ⟨by decide, C4_body_follows_head Direction.Up ⟨3, 3⟩ [⟨3, 2⟩] 0 (by decide)⟩

/-- C3 (counterexample): snake [(3,5),(3,4),(3,3)] facing Up, one pending
growth signal. The movement tick yields [(3,6),(3,5),(3,4)] and the growth
step appends (3,4) — the tail's post-move position — whereas the old tail's
pre-tick position was (3,3) ≠ (3,4), contradicting the claim that the new
tail is appended at the old tail's pre-tick position. -/
theorem C3_counterexample :
    movement_then_growing Direction.Up [⟨3, 5⟩, ⟨3, 4⟩, ⟨3, 3⟩] 1 =
      some (0, [⟨3, 6⟩, ⟨3, 5⟩, ⟨3, 4⟩, ⟨3, 4⟩]) ∧
    (⟨3, 4⟩ : Position) ≠ ⟨3, 3⟩ := by
  decide

/-- The last element of a take of n+1 elements is the element at index n. -/
theorem getLast?_take_succ {α : Type} (l : List α) (n : Nat) (h : n < l.length) :
    (l.take (n + 1)).getLast? = l[n]? := by
  induction l generalizing n with
  | nil => simp at h
  | cons a l ih =>
    cases n with
    | zero => simp
    | succ n =>
      have hn : n < l.length := by simpa using h
      rw [List.take_succ_cons]
      cases hl : l.take (n + 1) with
      | nil =>
        exfalso
        have hlen := congrArg List.length hl
        rw [List.length_take] at hlen
        simp only [List.length_nil, Nat.min_eq_zero_iff] at hlen
        omega
      | cons b t =>
        rw [List.getLast?_cons_cons, ← hl, ih n hn, List.getElem?_cons_succ]

/-- C3 (amended): for every snake with a head and at least one body segment,
a movement tick followed by the growth step with a pending growth signal
increases the segment count by exactly 1, and the newly appended tail
segment's position equals the tail's post-move position, i.e. the pre-tick
snapshot position of the tail's immediate predecessor. -/
theorem C3_growth_continuity :
    ∀ (d : Direction) (head : Position) (children : List Position)
      (pending : Nat) (out : Nat × List Position),
      children ≠ [] →
      movement_then_growing d (head :: children) (pending + 1) = some out →
      out.2.length = (head :: children).length + 1 ∧
      out.2.getLast? = (head :: children)[children.length - 1]? := by
  intro d head children pending out hne hrun
  obtain ⟨m, hm⟩ : ∃ m, children.length = m + 1 := by
    have := List.length_pos.mpr hne
    exact ⟨children.length - 1, by omega⟩
  unfold movement_then_growing at hrun
  rw [snake_movement_eq] at hrun
  obtain ⟨x, hx⟩ : ∃ x, (head :: children)[m]? = some x := by
    rw [List.getElem?_eq_getElem (by simp only [List.length_cons, hm]; omega)]
    exact ⟨_, rfl⟩
  have hlast :
      (move_head d head :: (head :: children).take children.length).getLast? =
        some x := by
    rw [hm, List.take_succ_cons, List.getLast?_cons_cons, ← List.take_succ_cons,
      getLast?_take_succ (head :: children) m
        (by simp only [List.length_cons, hm]; omega), hx]
  rw [snake_growing_succ pending _ x hlast] at hrun
  injection hrun with hrun
  rw [← hrun]
  refine ⟨?_, ?_⟩
  · simp only [List.length_append, List.length_cons, List.length_take,
      List.length_nil]
    omega
  · rw [List.getLast?_concat, hm, Nat.add_sub_cancel]
    exact hx.symm

/-- C3 (amended) witness: the starting snake moving Up with one pending
growth signal grows from 2 to 3 segments and the appended tail sits at
(3,3), the pre-tick position of the tail's predecessor (the head). -/
theorem C3_growth_continuity_witness :
    ((0, [⟨3, 4⟩, ⟨3, 3⟩, ⟨3, 3⟩]) : Nat × List Position).2.length =
      ([⟨3, 3⟩, ⟨3, 2⟩] : List Position).length + 1 ∧
    ((0, [⟨3, 4⟩, ⟨3, 3⟩, ⟨3, 3⟩]) : Nat × List Position).2.getLast? =
      ([⟨3, 3⟩, ⟨3, 2⟩] : List Position)[([⟨3, 2⟩] : List Position).length - 1]? :=
  C3_growth_continuity Direction.Up ⟨3, 3⟩ [⟨3, 2⟩] 0
    (0, [⟨3, 4⟩, ⟨3, 3⟩, ⟨3, 3⟩]) (by decide) (by decide)

/-- C9: one application of the growth step extends the segment sequence by at
most 1, no matter how many growth signals are pending. -/
theorem C9_growth_at_most_one :
    ∀ (pending : Nat) (segments : List Position) (out : Nat × List Position),
      snake_growing pending segments = some out →
      out.2.length ≤ segments.length + 1 := by
  intro pending segments out h
  cases pending with
  | zero =>
    unfold snake_growing at h
    injection h with h
    rw [← h]
    exact Nat.le_succ _
  | succ n =>
    cases hl : segments.getLast? with
    | none => simp [snake_growing, hl] at h
    | some x =>
      rw [snake_growing_succ n segments x hl] at h
      injection h with h
      rw [← h]
      simp

/-- C9 witness: with 2 pending growth signals on the starting snake, one
application of the growth step consumes one signal and the segment count
goes from 2 to 3 ≤ 2 + 1. -/
theorem C9_growth_at_most_one_witness :
    ((1, [⟨3, 3⟩, ⟨3, 2⟩, ⟨3, 2⟩]) : Nat × List Position).2.length ≤
      ([⟨3, 3⟩, ⟨3, 2⟩] : List Position).length + 1 :=
  C9_growth_at_most_one 2 [⟨3, 3⟩, ⟨3, 2⟩]
    (1, [⟨3, 3⟩, ⟨3, 2⟩, ⟨3, 2⟩]) (by decide)

end Snake
